import Mathlib

/-!
Formal model of the "20 questions" socket server (`server.js`, version 1.1).

The per-room state machine is embedded shallowly: each socket.io handler and
timer callback becomes a pure function from a `Room` (plus the event's payload)
to an updated room together with the list of outbound broadcasts it emits.
Handlers that may destroy the room (`room:leave`, `disconnect`, answer-timeout
expulsion of the thinker) return `Option Room`, where `none` models
`rooms.delete(code)`.

JS `Map`s and plain objects are modelled as association lists in insertion
order (JS `Map` iteration order), node timer handles as an `Option TimerKind`
recording which callback is scheduled and for whom, and a fired timer callback
as applying the corresponding `handle*Timeout` function with the player id the
closure captured at scheduling time (which is how a stale callback can fire
for a player who is no longer current).
-/

namespace TwentyQuestions

/-- `room.status`: `'waiting' | 'playing' | 'guessing'`. -/
inductive Status
  | waiting
  | playing
  | guessing
deriving DecidableEq, Repr

/-- Which callback `room.turnTimer` currently points at, and for whom it was
scheduled (the id captured by the `setTimeout` closure). -/
inductive TimerKind
  | ask (playerId : String)
  | answer (thinkerId : String)
deriving DecidableEq, Repr

/-- A `room.players` entry: `{ name, role, timeouts }` (role is the string
`'thinker'` or `'guesser'`). -/
structure Player where
  name : String
  role : String
  timeouts : Nat
deriving DecidableEq, Repr

/-- A `room.questions` entry: `{ id, by, text, answer }`. -/
structure Question where
  id : Nat
  by' : String
  text : String
  answer : Option String
deriving DecidableEq, Repr

/-- A `room.guesses` entry: `{ by, text, correct }`. -/
structure GuessRec where
  by' : String
  text : String
  correct : Bool
deriving DecidableEq, Repr

/-- Outbound socket.io emissions (room-wide or private), in emission order.
Payloads are abbreviated to the fields the development reasons about. -/
inductive Event
  | roomState
  | roomsUpdate
  | logHistory
  | chatHistory
  | roundStarted
  | roundSecret (secretWord : String)
  | turnNow (socketId : String)
  | timerStart (target : String) (ty : String)
  | questionNew (id : Nat)
  | questionUpdate (id : Nat)
  | counterUpdate (asked max : Nat)
  | guessNew (by' : String) (text : String) (correct : Bool)
  | roundEnded (message : String) (secretWord : Option String) (winnerId : Option String)
  | logMessage (message : String)
  | chatMessage
  | systemError (target : String) (message : String)
deriving DecidableEq, Repr

/-- One room of the `rooms` map. -/
structure Room where
  code : String
  status : Status
  players : List (String × Player)
  thinkerSocketId : Option String
  secretWord : Option String
  questions : List Question
  guesses : List GuessRec
  turnOrder : List String
  turnIdx : Nat
  maxQuestions : Nat
  asked : Nat
  guessAttempts : Option (List (String × Nat))
  lastQuestionId : Option Nat
  logs : List String
  chat : List (String × String)
  turnTimer : Option TimerKind
deriving DecidableEq, Repr

/-- `map.get(k)` on a JS `Map` / property read on a plain object. -/
def alGet {α : Type} (l : List (String × α)) (k : String) : Option α :=
  (l.find? (fun p => p.1 == k)).map (·.2)

/-- `map.set(k, v)`: updates in place if present (keeping position), else
appends — JS `Map` insertion-order semantics. -/
def alSet {α : Type} (l : List (String × α)) (k : String) (v : α) : List (String × α) :=
  if (l.find? (fun p => p.1 == k)).isSome then
    l.map (fun p => if p.1 == k then (k, v) else p)
  else
    l ++ [(k, v)]

/-- `map.delete(k)`. -/
def alErase {α : Type} (l : List (String × α)) (k : String) : List (String × α) :=
  l.filter (fun p => p.1 != k)

/-- Update the entry at `k` in place if present (JS `const p = map.get(k); if (p) mutate p`). -/
def alModify {α : Type} (l : List (String × α)) (k : String) (f : α → α) : List (String × α) :=
  l.map (fun p => if p.1 == k then (p.1, f p.2) else p)

/-- `Array.from(map.keys())`. -/
def alKeys {α : Type} (l : List (String × α)) : List String :=
  l.map (·.1)

/-- The JS built-in `String.prototype.trim()`, modelled structurally on the
character list (Lean's own `String.trim` is defined by well-founded recursion
on byte positions and does not evaluate inside the kernel). -/
def jsTrim (s : String) : String :=
  ⟨((s.data.dropWhile Char.isWhitespace).reverse.dropWhile Char.isWhitespace).reverse⟩

/-- The JS built-in `String.prototype.toLowerCase()`, modelled structurally. -/
def jsToLower (s : String) : String :=
  ⟨s.data.map Char.toLower⟩

/-- JS truthiness of a possibly-absent string (`if (q.answer) ...`):
`null`/`undefined` and `''` are falsy. -/
def strTruthy : Option String → Bool
  | some s => s != ""
  | none => false

/-- `room.players.get(id)?.name`, rendering JS `undefined` interpolation. -/
def nameOf (r : Room) (id : String) : String :=
  ((alGet r.players id).map (·.name)).getD "undefined"

/-- `createRoom(code)`: the fresh room record pushed into `rooms`. -/
def createRoom (code : String) : Room where
  code := code
  status := .waiting
  players := []
  thinkerSocketId := none
  secretWord := none
  questions := []
  guesses := []
  turnOrder := []
  turnIdx := 0
  maxQuestions := 20
  asked := 0
  guessAttempts := none
  lastQuestionId := none
  logs := []
  chat := []
  turnTimer := none

/-- `pushLog(room, message)`: appends to `room.logs` and broadcasts
`log:message`. -/
def pushLog (r : Room) (message : String) : Room × List Event :=
  ({ r with logs := r.logs ++ [message] }, [.logMessage message])

/-- `clearTurnTimer(room)`. -/
def clearTurnTimer (r : Room) : Room :=
  { r with turnTimer := none }

/-- `startAskTimer(room)`: clears any timer, then (if still playing with a
non-empty turn order) clamps `turnIdx`, notifies the current player, and
schedules `handleAskTimeout` for them. -/
def startAskTimer (r : Room) : Room × List Event :=
  let r := clearTurnTimer r
  if r.status ≠ .playing then (r, [])
  else if r.turnOrder.isEmpty then (r, [])
  else
    let r := if r.turnIdx ≥ r.turnOrder.length then { r with turnIdx := 0 } else r
    let currentId := r.turnOrder.getD r.turnIdx ""
    ({ r with turnTimer := some (.ask currentId) }, [.timerStart currentId "ask"])

/-- `startAnswerTimer(room)`: clears any timer, then (if still playing and a
thinker exists) notifies the thinker and schedules `handleAnswerTimeout`. -/
def startAnswerTimer (r : Room) : Room × List Event :=
  let r := clearTurnTimer r
  if r.status ≠ .playing then (r, [])
  else
    match r.thinkerSocketId with
    | none => (r, [])
    | some thinkerId =>
        ({ r with turnTimer := some (.answer thinkerId) }, [.timerStart thinkerId "answer"])

/-- `handlePlayerExitDuringRound(room, socketId)`: removes the id from
`turnOrder` (if present) and, while playing, applies the index-adjustment
rule, possibly announcing the next turn and restarting the ask timer. -/
def handlePlayerExitDuringRound (r : Room) (socketId : String) : Room × List Event :=
  let idx := r.turnOrder.findIdx (· == socketId)
  if idx < r.turnOrder.length then
    let r := { r with turnOrder := r.turnOrder.eraseIdx idx }
    if r.status = .playing then
      if r.turnOrder.isEmpty then (clearTurnTimer r, [])
      else
        -- If the removed index is before current pointer, shift pointer left
        let r := if idx < r.turnIdx then { r with turnIdx := r.turnIdx - 1 } else r
        -- If the removed player was exactly the current turn index, the
        -- player that now occupies the same index is the next to play.
        if idx = r.turnIdx then
          let r := if r.turnIdx ≥ r.turnOrder.length then { r with turnIdx := 0 } else r
          let nextId := r.turnOrder.getD r.turnIdx ""
          let s := startAskTimer r
          (s.1, [.turnNow nextId] ++ s.2)
        else (r, [])
    else (r, [])
  else (r, [])

/-- `startGuessPhase(code)`: enters the guessing phase, cancels the timer, and
gives every current non-thinker player 2 attempts. -/
def startGuessPhase (r : Room) : Room × List Event :=
  let r := { r with status := .guessing }
  let r := clearTurnTimer r
  let r := { r with
    guessAttempts :=
      some (((alKeys r.players).filter (fun id => some id ≠ r.thinkerSocketId)).map
        (fun id => (id, 2))) }
  pushLog r "🔔 Domande finite! Ogni giocatore ha 2 tentativi per indovinare."

/-- The `let nextThinkerId = ...` computation inside `rotateThinker`. -/
def nextThinkerOf (r : Room) : Option String :=
  if ¬ r.turnOrder.isEmpty then
    let i := if r.turnIdx ≥ r.turnOrder.length then 0 else r.turnIdx
    some (r.turnOrder.getD i "")
  else
    match (alKeys r.players).find? (fun id => some id != r.thinkerSocketId) with
    | some p => some p
    | none => r.thinkerSocketId

/-- `rotateThinker(room)`: picks the next thinker, reassigns every player's
role, updates `thinkerSocketId`, rebuilds `turnOrder` excluding the new
thinker, and resets `turnIdx`. -/
def rotateThinker (r : Room) : Room :=
  let nextThinkerId := nextThinkerOf r
  let r := { r with
    players := r.players.map (fun (p : String × Player) =>
      (p.1, { p.2 with role := if some p.1 = nextThinkerId then "thinker" else "guesser" })) }
  let r := { r with thinkerSocketId := nextThinkerId }
  { r with
    turnOrder := (alKeys r.players).filter (fun id => some id ≠ nextThinkerId),
    turnIdx := 0 }

/-- `endRoundAndRotate(code, message, winnerId)`: cancels the timer, broadcasts
`round:ended` with the secret and transcript, rotates the thinker, resets the
round-scoped fields, and returns to `waiting`. -/
def endRoundAndRotate (r : Room) (message : String) (winnerId : Option String) :
    Room × List Event :=
  let r := clearTurnTimer r
  let evs := [Event.roundEnded message r.secretWord winnerId]
  let r := rotateThinker r
  let r := { r with status := Status.waiting, secretWord := none, questions := [],
                    guesses := [], asked := 0, guessAttempts := none }
  let s := pushLog r message
  (s.1, evs ++ s.2 ++ [.roomState, .roomsUpdate])

/-- `handleAskTimeout(room, playerId)`: stale-guarded; on a genuine timeout
increments the player's timeout counter, expelling after 3, otherwise skipping
the turn (counting a question) and advancing. -/
def handleAskTimeout (r : Room) (playerId : String) : Room × List Event :=
  -- verify room still in playing and same current player
  if r.status ≠ .playing then (r, [])
  else if r.turnOrder.isEmpty then (r, [])
  else if r.turnOrder.get? r.turnIdx ≠ some playerId then (r, [])
  else
    match alGet r.players playerId with
    | none =>
        -- player no longer present; remove from turnOrder
        handlePlayerExitDuringRound r playerId
    | some player =>
        let player := { player with timeouts := player.timeouts + 1 }
        let r := { r with players := alSet r.players playerId player }
        if player.timeouts ≥ 3 then
          let s1 := pushLog r ("⛔ " ++ player.name ++ " espulso per inattività (3 timeout).")
          let s2 := handlePlayerExitDuringRound s1.1 playerId
          (clearTurnTimer s2.1, s1.2 ++ s2.2 ++ [.roomState, .roomsUpdate])
        else
          let r := { r with asked := r.asked + 1 }
          let e1 := [Event.counterUpdate r.asked r.maxQuestions]
          let s2 := pushLog r ("⏱ " ++ player.name ++ " non ha fatto la domanda in tempo — turno saltato.")
          let r := s2.1
          if r.asked ≥ r.maxQuestions then
            let s3 := startGuessPhase (clearTurnTimer r)
            (s3.1, e1 ++ s2.2 ++ s3.2)
          else if ¬ r.turnOrder.isEmpty then
            let r := { r with turnIdx := (r.turnIdx + 1) % r.turnOrder.length }
            let nextId := r.turnOrder.getD r.turnIdx ""
            let s3 := startAskTimer r
            (s3.1, e1 ++ s2.2 ++ [.turnNow nextId] ++ s3.2)
          else (clearTurnTimer r, e1 ++ s2.2)

/-- The tail of `handleAnswerTimeout` after the three-strikes check: `// proceed
to next player's turn` (advance the turn and restart the ask timer, or cancel
the timer when nobody is left to ask). -/
def answerTimeoutAdvance (r : Room) (evs : List Event) : Option Room × List Event :=
  if ¬ r.turnOrder.isEmpty then
    let r := { r with turnIdx := (r.turnIdx + 1) % r.turnOrder.length }
    let nextId := r.turnOrder.getD r.turnIdx ""
    let s2 := startAskTimer r
    (some s2.1, evs ++ [.turnNow nextId] ++ s2.2)
  else (some (clearTurnTimer r), evs)

/-- `handleAnswerTimeout(room, thinkerId)`: auto-answers the first pending
question with "Non so", increments the thinker's timeout counter (3 strikes
ends the round and deletes the room), then advances the turn. -/
def handleAnswerTimeout (r : Room) (thinkerId : String) : Option Room × List Event :=
  if r.status ≠ .playing then (some r, [])
  else
    -- find pending question (first with null answer)
    let s1 :=
      match r.questions.find? (fun q => q.answer.isNone) with
      | some q =>
          let r := { r with questions := (r.questions.map (fun (x : Question) =>
            if x.id == q.id then { x with answer := some "Non so" } else x)) }
          let sl := pushLog r "⏱ Il Pensatore non ha risposto in tempo → risposto automaticamente \"Non so\"."
          (sl.1, [Event.questionUpdate q.id] ++ sl.2)
      | none => (r, ([] : List Event))
    let r := s1.1
    match alGet r.players thinkerId with
    | some thinker =>
        let thinker := { thinker with timeouts := thinker.timeouts + 1 }
        let r := { r with players := alSet r.players thinkerId thinker }
        if thinker.timeouts ≥ 3 then
          -- expel thinker -> end round and reveal word (same as thinker leaving)
          (none, s1.2 ++ [Event.roundEnded "Il Pensatore è stato espulso per inattività. Round terminato."
            r.secretWord none])
        else answerTimeoutAdvance r s1.2
    | none => answerTimeoutAdvance r s1.2

/-- The `room:create` handler's effect on the fresh room: the creator joins as
thinker. -/
def createRoomState (code : String) (creatorId creatorName : String) : Room × List Event :=
  let r := createRoom code
  let r := { r with players := alSet r.players creatorId ⟨creatorName, "thinker", 0⟩,
                    thinkerSocketId := some creatorId }
  let s := pushLog r ("👤 " ++ creatorName ++ " ha creato la stanza ed è il Pensatore")
  (s.1, s.2 ++ [.roomState, .roomsUpdate])

/-- The `room:join` handler. -/
def roomJoin (r : Room) (id name : String) : Room × List Event :=
  let r := { r with players := alSet r.players id ⟨name, "guesser", 0⟩ }
  let e0 := [Event.logHistory, Event.chatHistory]
  let s1 := pushLog r ("👋 " ++ name ++ " è entrato nella stanza")
  let r := s1.1
  -- if the round is in progress, append to the turn order (if absent)
  let s2 :=
    if r.status = .playing ∧ some id ≠ r.thinkerSocketId ∧ ¬ r.turnOrder.contains id then
      pushLog { r with turnOrder := r.turnOrder ++ [id] }
        ("➕ " ++ name ++ " si è unito in corsa e verrà servito quando arriverà il suo turno")
    else (r, [])
  (s2.1, e0 ++ s1.2 ++ s2.2 ++ [.roomState, .roomsUpdate])

/-- The `room:leave` handler; `none` models `rooms.delete(code)`. -/
def roomLeave (r : Room) (id : String) : Option Room × List Event :=
  let player := alGet r.players id
  let r := { r with players := alErase r.players id }
  let s1 :=
    match player with
    | some p => pushLog r ("🚪 " ++ p.name ++ " ha lasciato la stanza")
    | none => (r, [])
  let r := s1.1
  if some id = r.thinkerSocketId then
    -- thinker leaves: round ends revealing the word, room destroyed
    let r := clearTurnTimer r
    (none, s1.2 ++ [.roundEnded "Il Pensatore ha lasciato la stanza. Round terminato."
      r.secretWord none, .roomsUpdate])
  else
    let s2 := handlePlayerExitDuringRound r id
    if s2.1.players.isEmpty then (none, s1.2 ++ s2.2 ++ [.roomsUpdate])
    else (some s2.1, s1.2 ++ s2.2 ++ [.roomState, .roomsUpdate])

/-- The per-room effect of the `disconnect` handler (same as leaving, but the
room is not destroyed when it becomes empty). -/
def disconnectRoom (r : Room) (id : String) : Option Room × List Event :=
  if (alGet r.players id).isNone then (some r, [])
  else
    let player := alGet r.players id
    let r := { r with players := alErase r.players id }
    let s1 :=
      match player with
      | some p => pushLog r ("🚪 " ++ p.name ++ " si è disconnesso")
      | none => (r, [])
    let r := s1.1
    if some id = r.thinkerSocketId then
      let r := clearTurnTimer r
      (none, s1.2 ++ [.roundEnded "Il Pensatore ha lasciato la stanza. Round terminato."
        r.secretWord none, .roomsUpdate])
    else
      let s2 := handlePlayerExitDuringRound r id
      (some s2.1, s1.2 ++ s2.2 ++ [.roomState, .roomsUpdate])

/-- The `round:start` handler. -/
def roundStart (r : Room) (id : String) (secretWord : String) : Room × List Event :=
  if some id ≠ r.thinkerSocketId then (r, [])
  else
    let t := jsTrim secretWord
    let r := { r with secretWord := some t }
    if t = "" then (r, [.systemError id "Parola segreta vuota"])
    else
      let r := { r with status := Status.playing, questions := [], guesses := [],
                        asked := 0, guessAttempts := none,
                        turnOrder := (alKeys r.players).filter (fun pid => some pid ≠ r.thinkerSocketId),
                        turnIdx := 0,
                        players := r.players.map (fun (p : String × Player) =>
                          (p.1, { p.2 with timeouts := 0 })) }
      let e0 := [Event.roundStarted, Event.roundSecret t]
      let s1 :=
        if ¬ r.turnOrder.isEmpty then
          let nextId := r.turnOrder.getD r.turnIdx ""
          let st := startAskTimer r
          (st.1, [Event.turnNow nextId] ++ st.2)
        else (r, [])
      let s2 := pushLog s1.1 "▶️ Round iniziato!"
      (s2.1, e0 ++ s1.2 ++ s2.2 ++ [.roomsUpdate, .roomState])

/-- The `question:ask` handler. -/
def questionAsk (r : Room) (id : String) (text : String) : Room × List Event :=
  if r.status ≠ .playing then (r, [])
  else if r.turnOrder.get? r.turnIdx ≠ some id then (r, [.systemError id "Non è il tuo turno"])
  else if r.asked ≥ r.maxQuestions then (r, [.systemError id "Limite domande raggiunto"])
  else
    -- reset asker's timeout counter
    let r := { r with players := alModify r.players id (fun p => { p with timeouts := 0 }) }
    let r := clearTurnTimer r
    let q : Question := ⟨r.questions.length + 1, id, jsTrim text, none⟩
    let r := { r with questions := r.questions ++ [q], lastQuestionId := some q.id }
    let s1 := startAnswerTimer r
    (s1.1, [.questionNew q.id] ++ s1.2)

/-- The `question:answer` handler. -/
def questionAnswer (r : Room) (id : String) (qid : Nat) (answer : String) : Room × List Event :=
  if some id ≠ r.thinkerSocketId then (r, [])
  else
    match r.questions.find? (fun q => q.id == qid) with
    | none => (r, [])
    | some q =>
        if strTruthy q.answer then (r, [])
        else
          let r := clearTurnTimer r
          -- reset thinker's timeouts
          let r := { r with players := alModify r.players id (fun p => { p with timeouts := 0 }) }
          let r := { r with questions := (r.questions.map (fun x =>
            if x.id == qid then { x with answer := some answer } else x)) }
          let e0 := [Event.questionUpdate qid]
          let s1 :=
            if answer ≠ "Non so" then
              ({ r with asked := r.asked + 1 },
               [Event.counterUpdate (r.asked + 1) r.maxQuestions])
            else (r, [])
          let r := s1.1
          let s2 :=
            if ¬ r.turnOrder.isEmpty then
              -- advance to next player
              let r := { r with turnIdx := (r.turnIdx + 1) % r.turnOrder.length }
              let nextId := r.turnOrder.getD r.turnIdx ""
              let st := startAskTimer r
              (st.1, [Event.turnNow nextId] ++ st.2)
            else (r, [])
          let r := s2.1
          let s3 :=
            if r.asked ≥ r.maxQuestions ∧ r.status = .playing then startGuessPhase r
            else (r, [])
          (s3.1, e0 ++ s1.2 ++ s2.2 ++ s3.2)

/-- `const correct = room.secretWord && guess.toLowerCase() === room.secretWord.toLowerCase()`
(the guess is already trimmed). -/
def guessCorrect (r : Room) (guess : String) : Bool :=
  match r.secretWord with
  | some w => w != "" && jsToLower guess == jsToLower w
  | none => false

/-- The `guess:submit` handler. -/
def guessSubmit (r : Room) (id : String) (text : String) : Room × List Event :=
  if r.status ≠ .playing ∧ r.status ≠ .guessing then (r, [])
  else
    let guess := jsTrim text
    let correct := guessCorrect r guess
    if r.status = .guessing ∧ r.guessAttempts.isSome then
      let ga0 := r.guessAttempts.getD []
      if some id = r.thinkerSocketId then (r, [])
      else
        let ga1 := if (alGet ga0 id).isNone then alSet ga0 id 2 else ga0
        let r := { r with guessAttempts := some ga1 }
        let n := (alGet ga1 id).getD 0
        -- attempts are naturals, so the JS `<= 0` guard is `= 0`
        if n = 0 then (r, [])
        else
          let ga2 := alSet ga1 id (n - 1)
          let r := { r with guessAttempts := some ga2 }
          let s1 := pushLog r (nameOf r id ++ " ha tentato: \"" ++ guess ++ "\" "
            ++ (if correct then "✅" else "❌")
            ++ " — Tentativi rimasti: " ++ toString (n - 1))
          let r := { s1.1 with players := alModify s1.1.players id (fun p => { p with timeouts := 0 }) }
          if correct then
            let s2 := endRoundAndRotate r (nameOf r id ++ " ha indovinato!") (some id)
            (s2.1, s1.2 ++ s2.2)
          else if ga2.all (fun p => p.2 = 0) then
            let s2 := endRoundAndRotate r "Nessuno ha indovinato. Tentativi esauriti." none
            (s2.1, s1.2 ++ s2.2)
          else (r, s1.2)
    else
      -- Playing-phase guess (early guess)
      let r := { r with players := alModify r.players id (fun p => { p with timeouts := 0 }) }
      let r := { r with guesses := r.guesses ++ [⟨id, guess, correct⟩] }
      let e0 := [Event.guessNew id guess correct]
      if correct then
        let s1 := endRoundAndRotate r (nameOf r id ++ " ha indovinato!") (some id)
        (s1.1, e0 ++ s1.2)
      else
        -- incorrect guess during playing counts as a question used
        let r := { r with asked := r.asked + 1 }
        let e1 := [Event.counterUpdate r.asked r.maxQuestions]
        if r.asked ≥ r.maxQuestions then
          let s1 := startGuessPhase r
          (s1.1, e0 ++ e1 ++ s1.2)
        else if ¬ r.turnOrder.isEmpty then
          let r := { r with turnIdx := (r.turnIdx + 1) % r.turnOrder.length }
          let nextId := r.turnOrder.getD r.turnIdx ""
          let st := startAskTimer r
          (st.1, e0 ++ e1 ++ [.turnNow nextId] ++ st.2)
        else (r, e0 ++ e1)

/-- The `chat:message` handler. -/
def chatMessage (r : Room) (name text : String) : Room × List Event :=
  ({ r with chat := r.chat ++ [(name, text)] }, [.chatMessage])

/-- One inbound event or fired timer callback addressed to a room. A timer
callback carries the player id its closure captured at scheduling time, so a
stale callback may fire for a player who is no longer current. -/
inductive Op
  | join (id name : String)
  | leave (id : String)
  | disconnect (id : String)
  | roundStart (id secretWord : String)
  | questionAsk (id text : String)
  | questionAnswer (id : String) (qid : Nat) (answer : String)
  | guessSubmit (id text : String)
  | chat (name text : String)
  | askTimeout (playerId : String)
  | answerTimeout (thinkerId : String)
deriving DecidableEq, Repr

/-- Dispatch one operation to its handler; `none` means the room was
destroyed. -/
def stepOp (r : Room) : Op → Option Room × List Event
  | .join id name => let s := roomJoin r id name; (some s.1, s.2)
  | .leave id => roomLeave r id
  | .disconnect id => disconnectRoom r id
  | .roundStart id w => let s := roundStart r id w; (some s.1, s.2)
  | .questionAsk id t => let s := questionAsk r id t; (some s.1, s.2)
  | .questionAnswer id qid a => let s := questionAnswer r id qid a; (some s.1, s.2)
  | .guessSubmit id t => let s := guessSubmit r id t; (some s.1, s.2)
  | .chat n t => let s := chatMessage r n t; (some s.1, s.2)
  | .askTimeout pid => let s := handleAskTimeout r pid; (some s.1, s.2)
  | .answerTimeout tid => handleAnswerTimeout r tid

/-- Run a sequence of operations on a room (ignoring the emitted events). -/
def runOps (r : Room) (ops : List Op) : Option Room :=
  ops.foldl (fun o op => o.bind (fun r => (stepOp r op).1)) (some r)

/-! ### The turn-index / question-budget invariant

`Inv` is the inductive strengthening used to prove claims C3 and C4: while a
room is `playing`, `turnIdx` is in range whenever `turnOrder` is non-empty
(and pinned to `0` when it is empty), and `asked` never exceeds
`maxQuestions`.  Outside `playing` the code itself re-clamps `turnIdx` before
using it, and `asked` can overshoot (see the C4 counterexample), so the
invariant is deliberately restricted to the `playing` status. -/

def Inv (r : Room) : Prop :=
  r.status = .playing →
    (r.turnIdx < r.turnOrder.length ∨ r.turnIdx = 0) ∧ r.asked ≤ r.maxQuestions

theorem inv_of_status_ne (r : Room) (h : r.status ≠ .playing) : Inv r :=
  fun hs => absurd hs h

theorem inv_clearTurnTimer {r : Room} (h : Inv r) : Inv (clearTurnTimer r) := h

theorem inv_startAskTimer {r : Room} (h : Inv r) : Inv (startAskTimer r).1 := by
  unfold startAskTimer clearTurnTimer
  dsimp only
  split
  · exact h
  · split
    · exact h
    · split
      · intro hs
        exact ⟨Or.inr rfl, (h hs).2⟩
      · exact h

theorem inv_handlePlayerExitDuringRound {r : Room} (id : String) (h : Inv r) :
    Inv (handlePlayerExitDuringRound r id).1 := by
  unfold handlePlayerExitDuringRound
  dsimp only
  split
  case isFalse => exact h
  case isTrue hidx =>
    have hl : (r.turnOrder.eraseIdx (r.turnOrder.findIdx (· == id))).length
        = r.turnOrder.length - 1 := by
      rw [List.length_eraseIdx]
      simp [hidx]
    split
    case isFalse hst => exact inv_of_status_ne _ hst
    case isTrue hst =>
      split
      case isTrue hemp =>
        have hl0 : (r.turnOrder.eraseIdx (r.turnOrder.findIdx (· == id))).length = 0 := by
          simpa [List.isEmpty_iff, List.length_eq_zero] using hemp
        intro _
        refine ⟨Or.inr ?_, (h hst).2⟩
        show r.turnIdx = 0
        rcases (h hst).1 with hd | hd
        · omega
        · exact hd
      case isFalse hemp =>
        have hl0 : 0 < (r.turnOrder.eraseIdx (r.turnOrder.findIdx (· == id))).length := by
          rcases Nat.eq_zero_or_pos (r.turnOrder.eraseIdx (r.turnOrder.findIdx (· == id))).length with h0 | h0
          · exact absurd (by simpa [List.isEmpty_iff, List.length_eq_zero] using h0)
              (by simpa using hemp)
          · exact h0
        split
        case isTrue hdec =>
          split
          case isTrue heq =>
            dsimp only
            apply inv_startAskTimer
            split
            case isTrue => intro _; exact ⟨Or.inr rfl, (h hst).2⟩
            case isFalse hcl =>
              replace hcl : ¬ (r.turnIdx - 1
                  ≥ (r.turnOrder.eraseIdx (r.turnOrder.findIdx (· == id))).length) := hcl
              intro _
              refine ⟨Or.inl ?_, (h hst).2⟩
              show r.turnIdx - 1 < (r.turnOrder.eraseIdx (r.turnOrder.findIdx (· == id))).length
              omega
          case isFalse heq =>
            intro _
            refine ⟨Or.inl ?_, (h hst).2⟩
            show r.turnIdx - 1 < (r.turnOrder.eraseIdx (r.turnOrder.findIdx (· == id))).length
            rcases (h hst).1 with hd | hd <;> omega
        case isFalse hdec =>
          replace hdec : ¬ (r.turnOrder.findIdx (· == id) < r.turnIdx) := hdec
          split
          case isTrue heq =>
            dsimp only
            apply inv_startAskTimer
            split
            case isTrue => intro _; exact ⟨Or.inr rfl, (h hst).2⟩
            case isFalse hcl =>
              replace hcl : ¬ (r.turnIdx
                  ≥ (r.turnOrder.eraseIdx (r.turnOrder.findIdx (· == id))).length) := hcl
              intro _
              refine ⟨Or.inl ?_, (h hst).2⟩
              show r.turnIdx < (r.turnOrder.eraseIdx (r.turnOrder.findIdx (· == id))).length
              omega
          case isFalse heq =>
            replace heq : ¬ (r.turnOrder.findIdx (· == id) = r.turnIdx) := heq
            intro _
            refine ⟨?_, (h hst).2⟩
            show r.turnIdx < (r.turnOrder.eraseIdx (r.turnOrder.findIdx (· == id))).length ∨ r.turnIdx = 0
            rcases (h hst).1 with hd | hd
            · refine Or.inl ?_
              omega
            · exact Or.inr hd

theorem inv_startAnswerTimer {r : Room} (h : Inv r) : Inv (startAnswerTimer r).1 := by
  unfold startAnswerTimer clearTurnTimer
  dsimp only
  split
  · exact h
  · split
    · exact h
    · exact h

theorem inv_startGuessPhase (r : Room) : Inv (startGuessPhase r).1 := by
  intro hs
  exact Status.noConfusion hs

theorem inv_endRoundAndRotate (r : Room) (m : String) (w : Option String) :
    Inv (endRoundAndRotate r m w).1 := by
  intro hs
  exact Status.noConfusion hs

theorem inv_createRoomState (code cid cname : String) :
    Inv (createRoomState code cid cname).1 := by
  intro hs
  exact Status.noConfusion hs

theorem inv_pushLog {r : Room} (m : String) (h : Inv r) : Inv (pushLog r m).1 := h

theorem inv_roomJoin {r : Room} (id n : String) (h : Inv r) : Inv (roomJoin r id n).1 := by
  unfold roomJoin pushLog
  dsimp only
  split
  case isTrue hc =>
    intro hs
    refine ⟨?_, (h hs).2⟩
    show r.turnIdx < (r.turnOrder ++ [id]).length ∨ r.turnIdx = 0
    rcases (h hs).1 with hd | hd
    · exact Or.inl (by simp; omega)
    · exact Or.inr hd
  case isFalse => exact h

theorem inv_roundStart {r : Room} (id w : String) (h : Inv r) : Inv (roundStart r id w).1 := by
  unfold roundStart
  dsimp only
  split
  case isTrue => exact h
  case isFalse =>
    split
    case isTrue => exact h
    case isFalse =>
      split
      case isTrue =>
        dsimp only
        apply inv_pushLog
        apply inv_startAskTimer
        intro _
        exact ⟨Or.inr rfl, Nat.zero_le _⟩
      case isFalse =>
        apply inv_pushLog
        intro _
        exact ⟨Or.inr rfl, Nat.zero_le _⟩

theorem inv_questionAsk {r : Room} (id t : String) (h : Inv r) : Inv (questionAsk r id t).1 := by
  unfold questionAsk
  dsimp only
  split
  case isTrue => exact h
  case isFalse =>
    split
    case isTrue => exact h
    case isFalse =>
      split
      case isTrue => exact h
      case isFalse =>
        apply inv_startAnswerTimer
        exact h

theorem startAskTimer_status (r : Room) : (startAskTimer r).1.status = r.status := by
  unfold startAskTimer clearTurnTimer
  dsimp only
  split
  · rfl
  · split
    · rfl
    · split <;> rfl

theorem startAskTimer_asked (r : Room) : (startAskTimer r).1.asked = r.asked := by
  unfold startAskTimer clearTurnTimer
  dsimp only
  split
  · rfl
  · split
    · rfl
    · split <;> rfl

theorem startAskTimer_maxQuestions (r : Room) : (startAskTimer r).1.maxQuestions = r.maxQuestions := by
  unfold startAskTimer clearTurnTimer
  dsimp only
  split
  · rfl
  · split
    · rfl
    · split <;> rfl

theorem startAskTimer_turnOrder (r : Room) : (startAskTimer r).1.turnOrder = r.turnOrder := by
  unfold startAskTimer clearTurnTimer
  dsimp only
  split
  · rfl
  · split
    · rfl
    · split <;> rfl

theorem inv_questionAnswer {r : Room} (id : String) (qid : Nat) (answer : String) (h : Inv r) :
    Inv (questionAnswer r id qid answer).1 := by
  unfold questionAnswer
  dsimp only
  split
  case isTrue => exact h
  case isFalse =>
    split
    case h_1 => exact h
    case h_2 q hq =>
      split
      case isTrue => exact h
      case isFalse =>
        split
        case isTrue hso =>
          split
          case isTrue hne =>
            replace hne : ¬ (r.turnOrder.isEmpty = true) := hne
            have hpos : 0 < r.turnOrder.length := by
              simp [List.isEmpty_iff] at hne
              exact List.length_pos.2 hne
            split
            case isTrue => apply inv_startGuessPhase
            case isFalse hg =>
              rw [startAskTimer_asked, startAskTimer_maxQuestions, startAskTimer_status] at hg
              replace hg : ¬ (r.asked + 1 ≥ r.maxQuestions ∧ r.status = Status.playing) := hg
              apply inv_startAskTimer
              intro hs
              replace hs : r.status = Status.playing := hs
              refine ⟨Or.inl ?_, ?_⟩
              · show (r.turnIdx + 1) % r.turnOrder.length < r.turnOrder.length
                exact Nat.mod_lt _ hpos
              · show r.asked + 1 ≤ r.maxQuestions
                have hlt : ¬ (r.asked + 1 ≥ r.maxQuestions) := fun hge => hg ⟨hge, hs⟩
                omega
          case isFalse hne =>
            split
            case isTrue => apply inv_startGuessPhase
            case isFalse hg =>
              replace hg : ¬ (r.asked + 1 ≥ r.maxQuestions ∧ r.status = Status.playing) := hg
              intro hs
              replace hs : r.status = Status.playing := hs
              refine ⟨(h hs).1, ?_⟩
              show r.asked + 1 ≤ r.maxQuestions
              have hlt : ¬ (r.asked + 1 ≥ r.maxQuestions) := fun hge => hg ⟨hge, hs⟩
              omega
        case isFalse hso =>
          split
          case isTrue hne =>
            replace hne : ¬ (r.turnOrder.isEmpty = true) := hne
            have hpos : 0 < r.turnOrder.length := by
              simp [List.isEmpty_iff] at hne
              exact List.length_pos.2 hne
            split
            case isTrue => apply inv_startGuessPhase
            case isFalse hg =>
              apply inv_startAskTimer
              intro hs
              replace hs : r.status = Status.playing := hs
              refine ⟨Or.inl ?_, (h hs).2⟩
              show (r.turnIdx + 1) % r.turnOrder.length < r.turnOrder.length
              exact Nat.mod_lt _ hpos
          case isFalse hne =>
            split
            case isTrue => apply inv_startGuessPhase
            case isFalse hg =>
              intro hs
              replace hs : r.status = Status.playing := hs
              exact ⟨(h hs).1, (h hs).2⟩

theorem inv_guessSubmit {r : Room} (id t : String) (h : Inv r) : Inv (guessSubmit r id t).1 := by
  unfold guessSubmit
  dsimp only
  split
  case isTrue => exact h
  case isFalse =>
    split
    case isTrue =>
      split
      case isTrue => exact h
      case isFalse =>
        split
        all_goals
          split
          case isTrue => exact h
          case isFalse =>
            split
            case isTrue => dsimp only; exact inv_endRoundAndRotate _ _ _
            case isFalse =>
              split
              case isTrue => dsimp only; exact inv_endRoundAndRotate _ _ _
              case isFalse => exact h
    case isFalse =>
      split
      case isTrue => dsimp only; exact inv_endRoundAndRotate _ _ _
      case isFalse =>
        split
        case isTrue => dsimp only; exact inv_startGuessPhase _
        case isFalse hg =>
          replace hg : ¬ (r.asked + 1 ≥ r.maxQuestions) := hg
          split
          case isTrue hne =>
            replace hne : ¬ (r.turnOrder.isEmpty = true) := hne
            have hpos : 0 < r.turnOrder.length := by
              simp [List.isEmpty_iff] at hne
              exact List.length_pos.2 hne
            apply inv_startAskTimer
            intro hs
            refine ⟨Or.inl ?_, ?_⟩
            · show (r.turnIdx + 1) % r.turnOrder.length < r.turnOrder.length
              exact Nat.mod_lt _ hpos
            · show r.asked + 1 ≤ r.maxQuestions
              omega
          case isFalse hne =>
            intro hs
            replace hs : r.status = Status.playing := hs
            refine ⟨(h hs).1, ?_⟩
            show r.asked + 1 ≤ r.maxQuestions
            omega

theorem inv_handleAskTimeout {r : Room} (playerId : String) (h : Inv r) :
    Inv (handleAskTimeout r playerId).1 := by
  unfold handleAskTimeout
  dsimp only
  split
  case isTrue => exact h
  case isFalse =>
    split
    case isTrue => exact h
    case isFalse =>
      split
      case isTrue => exact h
      case isFalse =>
        split
        case h_1 => exact inv_handlePlayerExitDuringRound playerId h
        case h_2 player hp =>
          split
          case isTrue =>
            apply inv_clearTurnTimer
            exact inv_handlePlayerExitDuringRound playerId h
          case isFalse =>
            split
            case isTrue => dsimp only; exact inv_startGuessPhase _
            case isFalse hg =>
              replace hg : ¬ (r.asked + 1 ≥ r.maxQuestions) := hg
              split
              case isTrue hne =>
                replace hne : ¬ (r.turnOrder.isEmpty = true) := hne
                have hpos : 0 < r.turnOrder.length := by
                  simp [List.isEmpty_iff] at hne
                  exact List.length_pos.2 hne
                apply inv_startAskTimer
                intro hs
                refine ⟨Or.inl ?_, ?_⟩
                · show (r.turnIdx + 1) % r.turnOrder.length < r.turnOrder.length
                  exact Nat.mod_lt _ hpos
                · show r.asked + 1 ≤ r.maxQuestions
                  omega
              case isFalse hne =>
                intro hs
                replace hs : r.status = Status.playing := hs
                refine ⟨(h hs).1, ?_⟩
                show r.asked + 1 ≤ r.maxQuestions
                omega

theorem inv_answerTimeoutAdvance {r r' : Room} (evs : List Event)
    (he : (answerTimeoutAdvance r evs).1 = some r') (h : Inv r) : Inv r' := by
  unfold answerTimeoutAdvance at he
  dsimp only at he
  split at he
  case isTrue hne =>
    cases he
    replace hne : ¬ (r.turnOrder.isEmpty = true) := hne
    have hpos : 0 < r.turnOrder.length := by
      simp [List.isEmpty_iff] at hne
      exact List.length_pos.2 hne
    apply inv_startAskTimer
    intro hs
    replace hs : r.status = Status.playing := hs
    refine ⟨Or.inl ?_, (h hs).2⟩
    show (r.turnIdx + 1) % r.turnOrder.length < r.turnOrder.length
    exact Nat.mod_lt _ hpos
  case isFalse hne =>
    cases he
    exact h

theorem inv_handleAnswerTimeout {r r' : Room} (tid : String)
    (he : (handleAnswerTimeout r tid).1 = some r') (h : Inv r) : Inv r' := by
  unfold handleAnswerTimeout at he
  dsimp only at he
  split at he
  case isTrue =>
    cases he
    exact h
  case isFalse =>
    split at he
    case h_1 thinker hget =>
      split at he
      case isTrue => exact absurd he (by simp)
      case isFalse =>
        refine inv_answerTimeoutAdvance _ he ?_
        split
        case h_1 => exact h
        case h_2 => exact h
    case h_2 hget =>
      refine inv_answerTimeoutAdvance _ he ?_
      split
      case h_1 => exact h
      case h_2 => exact h

theorem inv_roomLeave {r r' : Room} (id : String)
    (he : (roomLeave r id).1 = some r') (h : Inv r) : Inv r' := by
  unfold roomLeave at he
  dsimp only at he
  split at he
  case isTrue => exact absurd he (by simp)
  case isFalse =>
    split at he
    case isTrue => exact absurd he (by simp)
    case isFalse =>
      cases he
      refine inv_handlePlayerExitDuringRound id ?_
      split
      case h_1 => exact h
      case h_2 => exact h

theorem inv_disconnectRoom {r r' : Room} (id : String)
    (he : (disconnectRoom r id).1 = some r') (h : Inv r) : Inv r' := by
  unfold disconnectRoom at he
  dsimp only at he
  split at he
  case isTrue =>
    cases he
    exact h
  case isFalse =>
    split at he
    case isTrue => exact absurd he (by simp)
    case isFalse =>
      cases he
      refine inv_handlePlayerExitDuringRound id ?_
      split
      case h_1 => exact h
      case h_2 => exact h

theorem inv_stepOp {r r' : Room} {op : Op}
    (he : (stepOp r op).1 = some r') (h : Inv r) : Inv r' := by
  cases op with
  | join id name =>
      unfold stepOp at he
      cases he
      exact inv_roomJoin id name h
  | leave id => exact inv_roomLeave id he h
  | disconnect id => exact inv_disconnectRoom id he h
  | roundStart id w =>
      unfold stepOp at he
      cases he
      exact inv_roundStart id w h
  | questionAsk id t =>
      unfold stepOp at he
      cases he
      exact inv_questionAsk id t h
  | questionAnswer id qid a =>
      unfold stepOp at he
      cases he
      exact inv_questionAnswer id qid a h
  | guessSubmit id t =>
      unfold stepOp at he
      cases he
      exact inv_guessSubmit id t h
  | chat n t =>
      unfold stepOp at he
      cases he
      exact h
  | askTimeout pid =>
      unfold stepOp at he
      cases he
      exact inv_handleAskTimeout pid h
  | answerTimeout tid => exact inv_handleAnswerTimeout tid he h

/-! ### Association-list and timer lemmas used by the claim theorems -/

theorem find_eq_self {l : List String} {k : String} (h : k ∈ l) :
    l.find? (fun x => x == k) = some k := by
  induction l with
  | nil => cases h
  | cons a t ih =>
      rw [List.find?_cons]
      by_cases ha : (a == k) = true
      · simp only [ha]
        exact congrArg some (eq_of_beq ha)
      · simp only [ha]
        rcases List.mem_cons.1 h with h1 | h1
        · exact absurd (by simp [h1]) ha
        · exact ih h1

theorem alGet_map_two {l : List String} {k : String} (v : Nat) (h : k ∈ l) :
    alGet (l.map (fun id => (id, v))) k = some v := by
  unfold alGet
  rw [List.find?_map]
  have : (fun (p : String × Nat) => p.1 == k) ∘ (fun id => (id, v)) = fun x => x == k := rfl
  rw [this, find_eq_self h]
  rfl

theorem alSet_of_find_isSome {l : List (String × Nat)} {k : String} (v : Nat)
    (h : (l.find? (fun p => p.1 == k)).isSome = true) :
    (l.map (fun p => if p.1 == k then (k, v) else p)).find? (fun p => p.1 == k) = some (k, v) := by
  induction l with
  | nil => simp [List.find?] at h
  | cons a t ih =>
      by_cases ha : (a.1 == k) = true
      · simp only [List.map_cons, ha, if_pos, List.find?_cons]
        rw [beq_self_eq_true]
      · simp only [List.map_cons, ha, if_neg, List.find?_cons, Bool.false_eq_true, ite_false]
        apply ih
        rw [List.find?_cons] at h
        simpa [ha] using h

theorem alGet_alSet (l : List (String × Nat)) (k : String) (v : Nat) :
    alGet (alSet l k v) k = some v := by
  unfold alGet alSet
  split
  case isTrue hf =>
      rw [alSet_of_find_isSome v hf]
      rfl
  case isFalse hf =>
      rw [List.find?_append]
      have : l.find? (fun p => p.1 == k) = none := by
        cases h : l.find? (fun p => p.1 == k)
        · rfl
        · rw [h] at hf
          simp at hf
      rw [this]
      simp [List.find?]

theorem all_eq_false_of_alGet {l : List (String × Nat)} {k : String} {n : Nat}
    (h : alGet l k = some n) (hn : n ≠ 0) : (l.all (fun p => p.2 = 0)) = false := by
  unfold alGet at h
  cases hf : l.find? (fun p => p.1 == k) with
  | none => rw [hf] at h; simp at h
  | some e =>
      rw [hf] at h
      simp at h
      have he : e ∈ l := List.mem_of_find?_eq_some hf
      rw [List.all_eq_false]
      refine ⟨e, he, ?_⟩
      simp [h]
      exact hn

theorem alKeys_map_snd {α : Type} (l : List (String × α)) (f : String × α → α) :
    alKeys (l.map (fun p => (p.1, f p))) = alKeys l := by
  unfold alKeys
  rw [List.map_map]
  rfl

theorem startAskTimer_of_playing {r : Room} (h1 : r.status = Status.playing)
    (h2 : r.turnIdx < r.turnOrder.length) :
    startAskTimer r
      = ({ r with turnTimer := some (.ask (r.turnOrder.getD r.turnIdx "")) },
         [.timerStart (r.turnOrder.getD r.turnIdx "") "ask"]) := by
  unfold startAskTimer clearTurnTimer
  dsimp only
  rw [if_neg (show ¬ _ ≠ Status.playing from not_not_intro h1)]
  rw [if_neg (show ¬ _ from by
    simp only [List.isEmpty_iff]
    exact List.ne_nil_of_length_pos (Nat.lt_of_le_of_lt (Nat.zero_le _) h2))]
  rw [if_neg (show ¬ _ ≥ _ from Nat.not_le.2 h2)]

theorem startGuessPhase_asked (r : Room) : (startGuessPhase r).1.asked = r.asked := rfl

theorem startGuessPhase_status (r : Room) : (startGuessPhase r).1.status = Status.guessing := rfl

theorem startGuessPhase_turnTimer (r : Room) : (startGuessPhase r).1.turnTimer = none := rfl

/-! ### Concrete rooms and traces

`demoRoom` is the room right after `room:create` by connection `"T"`; the
`c*ops` lists below are inbound-event traces driving it into the states the
counterexamples need. -/

def demoRoom : Room := (createRoomState "R" "T" "Tina").1

def c1ops : List Op :=
  [.join "a" "Anna", .join "b" "Bruno", .roundStart "T" "gatto",
   .askTimeout "a", .askTimeout "b", .askTimeout "a", .askTimeout "b", .askTimeout "a"]

/-- C1: evidence for the code bug.  Driving a room to `"a"`'s third
consecutive ask-timeout logs the expulsion and removes `"a"` from `turnOrder`,
but — unlike the voluntary-leave path, and contrary to the code's own
`remove from players and turnOrder` comment — `"a"` remains in the `players`
mapping (with `timeouts = 3`).  A repeated firing of the same timer callback
is a no-op, so the (partial) removal happens exactly once. -/
theorem c1_expulsion_keeps_player_in_players :
    ∃ r, runOps demoRoom c1ops = some r ∧
      alGet r.players "a" = some ⟨"Anna", "guesser", 3⟩ ∧
      "a" ∉ r.turnOrder ∧
      r.logs.contains "⛔ Anna espulso per inattività (3 timeout)." = true ∧
      handleAskTimeout r "a" = (r, []) := by
  refine ⟨(runOps demoRoom c1ops).get (by decide), (Option.some_get (by decide)).symm,
    by decide, by decide, by decide, by decide⟩

def c2ops : List Op :=
  [.join "a" "Anna", .join "b" "Bruno", .roundStart "T" "gatto",
   .questionAsk "a" "È un animale?", .questionAnswer "T" 1 "Sì"]

/-- C2 counterexample: a reachable `playing` room in which every question has
been answered (no pending unanswered question), yet a stale
`handleAnswerTimeout` firing is not a no-op: it increments the thinker's
timeout counter and advances the turn. -/
theorem c2_counterexample :
    ∃ r r', runOps demoRoom c2ops = some r ∧
      r.status = Status.playing ∧
      (∀ q ∈ r.questions, q.answer.isSome = true) ∧
      (handleAnswerTimeout r "T").1 = some r' ∧
      r' ≠ r ∧
      (alGet r.players "T").map (·.timeouts) = some 0 ∧
      (alGet r'.players "T").map (·.timeouts) = some 1 := by
  refine ⟨(runOps demoRoom c2ops).get (by decide),
    ((handleAnswerTimeout ((runOps demoRoom c2ops).get (by decide)) "T").1).get (by decide),
    (Option.some_get (by decide)).symm, by decide, by decide,
    (Option.some_get (by decide)).symm, by decide, by decide, by decide⟩

def c3askers : List String := ["a", "b", "c"]

def c3qa : List Op :=
  (List.range 20).flatMap (fun i =>
    [Op.questionAsk (c3askers.getD (i % 3) "") "q", Op.questionAnswer "T" (i + 1) "Sì"])

def c3ops : List Op :=
  [.join "a" "Anna", .join "b" "Bruno", .join "c" "Carla", .roundStart "T" "gatto"]
    ++ c3qa ++ [.leave "c"]

set_option maxRecDepth 100000 in
/-- C3 counterexample: a reachable room (thinker plus three guessers, twenty
answered questions taking it into `guessing` with `turnIdx = 2`) in which the
guesser `"c"` then leaves; `handlePlayerExitDuringRound` only adjusts
`turnIdx` while the status is `playing`, so the resulting reachable state has
a non-empty `turnOrder` with `turnIdx` out of range. -/
theorem c3_counterexample :
    ∃ r, runOps demoRoom c3ops = some r ∧
      r.status = Status.guessing ∧
      r.turnOrder ≠ [] ∧
      ¬ r.turnIdx < r.turnOrder.length := by
  refine ⟨(runOps demoRoom c3ops).get (by decide), (Option.some_get (by decide)).symm,
    by decide, by decide, by decide⟩

def c4askers : List String := ["a", "b"]

def c4qa : List Op :=
  (List.range 19).flatMap (fun i =>
    [Op.questionAsk (c4askers.getD (i % 2) "") "q", Op.questionAnswer "T" (i + 1) "Sì"])

def c4ops : List Op :=
  [.join "a" "Anna", .join "b" "Bruno", .roundStart "T" "gatto"] ++ c4qa
    ++ [.questionAsk "b" "q20", .guessSubmit "a" "sbagliato", .questionAnswer "T" 20 "Sì"]

set_option maxRecDepth 100000 in
/-- C4 counterexample: nineteen answered questions, then `"b"` asks question
20, an incorrect early guess consumes the twentieth slot and moves the room to
`guessing` with the question still pending; the thinker then answers it and —
`question:answer` having no status guard — `asked` is incremented to 21,
exceeding `maxQuestions = 20`. -/
theorem c4_counterexample :
    ∃ r, runOps demoRoom c4ops = some r ∧
      r.maxQuestions = 20 ∧
      r.asked = 21 ∧
      r.maxQuestions < r.asked := by
  refine ⟨(runOps demoRoom c4ops).get (by decide), (Option.some_get (by decide)).symm,
    by decide, by decide, by decide⟩

/-- C2 (amended): the stale-timer guards that do hold.  `handleAskTimeout` is
a no-op whenever the room is no longer `playing` or the scheduled player is no
longer `turnOrder[turnIdx]`; `handleAnswerTimeout` is a no-op whenever the
room is no longer `playing` (but, unlike the original claim, nothing guards
the pending-question condition: when `playing` with no pending question the
callback still mutates state — see the counterexample). -/
theorem c2_stale_timer_guards :
    (∀ (r : Room) (pid : String),
        (r.status ≠ Status.playing ∨ r.turnOrder.get? r.turnIdx ≠ some pid) →
        handleAskTimeout r pid = (r, [])) ∧
    (∀ (r : Room) (tid : String), r.status ≠ Status.playing →
        handleAnswerTimeout r tid = (some r, [])) := by
  constructor
  · intro r pid hor
    unfold handleAskTimeout
    dsimp only
    rcases hor with hst | hget
    · rw [if_pos hst]
    · by_cases hst : r.status ≠ Status.playing
      · rw [if_pos hst]
      · rw [if_neg hst]
        by_cases hemp : r.turnOrder.isEmpty
        · rw [if_pos hemp]
        · rw [if_neg hemp, if_pos hget]
  · intro r tid hst
    unfold handleAnswerTimeout
    dsimp only
    rw [if_pos hst]

/-- C2 witness: the guards evaluated on the concrete `waiting` room. -/
theorem c2_stale_timer_guards_witness :
    handleAskTimeout demoRoom "a" = (demoRoom, []) ∧
    handleAnswerTimeout demoRoom "T" = (some demoRoom, []) :=
  ⟨c2_stale_timer_guards.1 demoRoom "a" (Or.inl (by decide)),
   c2_stale_timer_guards.2 demoRoom "T" (by decide)⟩

/-- C3 (amended): the turn-index range invariant restricted to `playing`
rooms.  It holds of a freshly created room, is preserved by every operation
(`stepOp` covers each inbound event and timer callback), and while `playing`
it yields `turnIdx < len(turnOrder)` whenever `turnOrder` is non-empty.  (A
guesser leaving while the status is `Guessing` can push `turnIdx` out of
range — see the counterexample — the code re-clamps it at the next use.) -/
theorem c3_turnIdx_in_range_while_playing :
    (∀ code cid cname, Inv (createRoomState code cid cname).1) ∧
    (∀ (r r' : Room) (op : Op), (stepOp r op).1 = some r' → Inv r → Inv r') ∧
    (∀ r : Room, Inv r → r.status = Status.playing → r.turnOrder ≠ [] →
      r.turnIdx < r.turnOrder.length) :=
  ⟨fun code cid cname => inv_createRoomState code cid cname,
   fun _ _ _ he h => inv_stepOp he h,
   fun r h hs hne => by
    rcases (h hs).1 with hd | hd
    · exact hd
    · rw [hd]
      exact List.length_pos.2 hne⟩

def c3PlayingRoom : Room :=
  { demoRoom with
    status := Status.playing
    secretWord := some "gatto"
    players := demoRoom.players ++ [("a", ⟨"Anna", "guesser", 0⟩), ("b", ⟨"Bruno", "guesser", 0⟩)]
    turnOrder := ["a", "b"]
    turnIdx := 1 }

/-- C3 witness: the amended invariant applied to a concrete playing room and a
concrete step (`"b"` leaves, which re-issues the turn to `"a"`). -/
theorem c3_turnIdx_in_range_witness :
    Inv (createRoomState "R" "T" "Tina").1 ∧
    c3PlayingRoom.turnIdx < c3PlayingRoom.turnOrder.length ∧
    (∀ r', (stepOp c3PlayingRoom (Op.leave "b")).1 = some r' → Inv r') :=
  ⟨c3_turnIdx_in_range_while_playing.1 "R" "T" "Tina",
   c3_turnIdx_in_range_while_playing.2.2 c3PlayingRoom (fun _ => by decide) (by decide) (by decide),
   fun r' he => c3_turnIdx_in_range_while_playing.2.1 c3PlayingRoom r' (Op.leave "b") he
     (fun _ => by decide)⟩

/-- `asked` of an `ite` of handler results, given it on both branches. -/
theorem fst_asked_ite {c : Prop} [Decidable c] {n : Nat} (a b : Room × List Event)
    (ha : a.1.asked = n) (hb : b.1.asked = n) : (if c then a else b).1.asked = n := by
  split
  · exact ha
  · exact hb

/-- C4 (amended): while a room is `playing`, `asked` never exceeds
`maxQuestions` (established at creation and preserved by every operation),
and answering with the "Non so" sentinel never increments `asked`; but once
the room has moved to `guessing`, answering a question left pending from the
playing phase pushes `asked` past the bound (see the counterexample). -/
theorem c4_asked_bounded_while_playing :
    (∀ code cid cname, Inv (createRoomState code cid cname).1) ∧
    (∀ (r r' : Room) (op : Op), (stepOp r op).1 = some r' → Inv r →
      r'.status = Status.playing → r'.asked ≤ r'.maxQuestions) ∧
    (∀ (r : Room) (tid : String) (qid : Nat),
      (questionAnswer r tid qid "Non so").1.asked = r.asked) := by
  refine ⟨fun code cid cname => inv_createRoomState code cid cname,
    fun _ r' op he h hs => ((inv_stepOp he h) hs).2, ?_⟩
  intro r tid qid
  unfold questionAnswer
  dsimp only
  split
  · rfl
  · split
    case h_1 => rfl
    case h_2 q hq =>
      split
      · rfl
      · rw [if_neg (show ¬ (("Non so" : String) ≠ "Non so") from by simp)]
        dsimp only
        refine fst_asked_ite _ _ ?_ ?_ <;>
          first
          | (rw [startGuessPhase_asked]
             refine fst_asked_ite _ _ ?_ ?_ <;>
               first
               | rfl
               | (rw [show (((startAskTimer _).1, _) : Room × List Event).1.asked
                        = (startAskTimer _).1.asked from rfl, startAskTimer_asked]
                  rfl))
          | (refine fst_asked_ite _ _ ?_ ?_ <;>
               first
               | rfl
               | (rw [show (((startAskTimer _).1, _) : Room × List Event).1.asked
                        = (startAskTimer _).1.asked from rfl, startAskTimer_asked]
                  rfl))

/-- C4 witness: the bound and the sentinel no-increment evaluated on concrete
rooms. -/
theorem c4_asked_bounded_witness :
    (∀ r', (stepOp c3PlayingRoom (Op.questionAsk "b" "q")).1 = some r' →
      r'.status = Status.playing → r'.asked ≤ r'.maxQuestions) ∧
    (questionAnswer c3PlayingRoom "T" 1 "Non so").1.asked = c3PlayingRoom.asked :=
  ⟨fun r' he => c4_asked_bounded_while_playing.2.1 c3PlayingRoom r' (Op.questionAsk "b" "q") he
     (fun _ => by decide),
   c4_asked_bounded_while_playing.2.2 c3PlayingRoom "T" 1⟩

/-- C5 (amended): removing a guesser at index `idx` from a playing room:
`turnOrder` loses that index; if `idx < turnIdx` the pointer is decremented;
if `turnOrder` becomes empty the timer is cancelled and nothing is announced;
and — correcting the claim — a `turn:now` notification is issued if and only
if `idx` equals the old `turnIdx` **or** `idx + 1` equals the old `turnIdx`
(i.e. iff `idx` equals the pointer after the decrement step; the code compares
`idx` with the already-adjusted `turnIdx`). -/
theorem c5_exit_adjustment (r : Room) (pid : String)
    (hst : r.status = Status.playing)
    (hmem : pid ∈ r.turnOrder)
    (hinv : r.turnIdx < r.turnOrder.length) :
    (handlePlayerExitDuringRound r pid).1.turnOrder
        = r.turnOrder.eraseIdx (r.turnOrder.findIdx (· == pid)) ∧
    (r.turnOrder.findIdx (· == pid) < r.turnIdx →
      (handlePlayerExitDuringRound r pid).1.turnIdx = r.turnIdx - 1) ∧
    (r.turnOrder.length = 1 →
      (handlePlayerExitDuringRound r pid).1.turnTimer = none
        ∧ (handlePlayerExitDuringRound r pid).2 = []) ∧
    (1 < r.turnOrder.length →
      ((∃ q, Event.turnNow q ∈ (handlePlayerExitDuringRound r pid).2)
        ↔ (r.turnOrder.findIdx (· == pid) = r.turnIdx
            ∨ r.turnOrder.findIdx (· == pid) + 1 = r.turnIdx))) := by
  have hidx : r.turnOrder.findIdx (· == pid) < r.turnOrder.length :=
    List.findIdx_lt_length_of_exists ⟨pid, hmem, by simp⟩
  have hlen : (r.turnOrder.eraseIdx (r.turnOrder.findIdx (· == pid))).length = r.turnOrder.length - 1 := by
    rw [List.length_eraseIdx]
    simp [hidx]
  unfold handlePlayerExitDuringRound
  dsimp only
  rw [if_pos hidx]
  rw [if_pos (show ({ r with turnOrder := r.turnOrder.eraseIdx (r.turnOrder.findIdx (· == pid)) } : Room).status = Status.playing from hst)]
  rcases Nat.lt_or_ge 1 r.turnOrder.length with hgt | hle
  case inr =>
    -- the removed guesser was the only one: turnOrder becomes empty
    have h1 : r.turnOrder.length = 1 := by omega
    have hemp : (r.turnOrder.eraseIdx (r.turnOrder.findIdx (· == pid))).isEmpty = true := by
      rw [List.isEmpty_iff, ← List.length_eq_zero, hlen, h1]
    rw [if_pos hemp]
    refine ⟨rfl, ?_, fun _ => ⟨rfl, rfl⟩, ?_⟩
    · intro hd
      omega
    · intro hd
      omega
  case inl =>
    rw [if_neg (show ¬ ((r.turnOrder.eraseIdx (r.turnOrder.findIdx (· == pid))).isEmpty = true) from by
      simp only [List.isEmpty_iff]
      apply List.ne_nil_of_length_pos
      omega)]
    by_cases hdec : r.turnOrder.findIdx (· == pid) < r.turnIdx
    · rw [if_pos (show r.turnOrder.findIdx (· == pid) < ({ r with turnOrder := r.turnOrder.eraseIdx (r.turnOrder.findIdx (· == pid)) } : Room).turnIdx from hdec)]
      by_cases heq2 : r.turnOrder.findIdx (· == pid) = r.turnIdx - 1
      · rw [if_pos (show r.turnOrder.findIdx (· == pid) = ({ r with turnOrder := r.turnOrder.eraseIdx (r.turnOrder.findIdx (· == pid)), turnIdx := r.turnIdx - 1 } : Room).turnIdx from heq2)]
        rw [if_neg (show ¬ (({ r with turnOrder := r.turnOrder.eraseIdx (r.turnOrder.findIdx (· == pid)), turnIdx := r.turnIdx - 1 } : Room).turnIdx ≥ ({ r with turnOrder := r.turnOrder.eraseIdx (r.turnOrder.findIdx (· == pid)), turnIdx := r.turnIdx - 1 } : Room).turnOrder.length) from show ¬ (r.turnIdx - 1 ≥ (r.turnOrder.eraseIdx (r.turnOrder.findIdx (· == pid))).length) from by omega)]
        rw [startAskTimer_of_playing (r := ({ r with turnOrder := r.turnOrder.eraseIdx (r.turnOrder.findIdx (· == pid)), turnIdx := r.turnIdx - 1 } : Room)) hst (show r.turnIdx - 1 < (r.turnOrder.eraseIdx (r.turnOrder.findIdx (· == pid))).length from by omega)]
        refine ⟨rfl, fun _ => rfl, ?_, ?_⟩
        · intro h1
          omega
        · intro _
          exact iff_of_true ⟨_, List.mem_append_left _ (List.mem_singleton_self _)⟩
            (Or.inr (by omega))
      · rw [if_neg (show ¬ (r.turnOrder.findIdx (· == pid) = ({ r with turnOrder := r.turnOrder.eraseIdx (r.turnOrder.findIdx (· == pid)), turnIdx := r.turnIdx - 1 } : Room).turnIdx) from heq2)]
        refine ⟨rfl, fun _ => rfl, ?_, ?_⟩
        · intro h1
          omega
        · intro _
          refine iff_of_false ?_ ?_
          · rintro ⟨q, hq⟩
            simp at hq
          · rintro (h1 | h1) <;> omega
    · rw [if_neg (show ¬ (r.turnOrder.findIdx (· == pid) < ({ r with turnOrder := r.turnOrder.eraseIdx (r.turnOrder.findIdx (· == pid)) } : Room).turnIdx) from hdec)]
      by_cases heq : r.turnOrder.findIdx (· == pid) = r.turnIdx
      · rw [if_pos (show r.turnOrder.findIdx (· == pid) = ({ r with turnOrder := r.turnOrder.eraseIdx (r.turnOrder.findIdx (· == pid)) } : Room).turnIdx from heq)]
        by_cases hcl : r.turnIdx ≥ (r.turnOrder.eraseIdx (r.turnOrder.findIdx (· == pid))).length
        · rw [if_pos (show ({ r with turnOrder := r.turnOrder.eraseIdx (r.turnOrder.findIdx (· == pid)) } : Room).turnIdx ≥ ({ r with turnOrder := r.turnOrder.eraseIdx (r.turnOrder.findIdx (· == pid)) } : Room).turnOrder.length from hcl)]
          rw [startAskTimer_of_playing (r := ({ r with turnOrder := r.turnOrder.eraseIdx (r.turnOrder.findIdx (· == pid)), turnIdx := 0 } : Room)) hst (show (0 : Nat) < (r.turnOrder.eraseIdx (r.turnOrder.findIdx (· == pid))).length from by omega)]
          refine ⟨rfl, fun hd => absurd hd hdec, ?_, ?_⟩
          · intro h1
            omega
          · intro _
            exact iff_of_true ⟨_, List.mem_append_left _ (List.mem_singleton_self _)⟩
              (Or.inl heq)
        · rw [if_neg (show ¬ (({ r with turnOrder := r.turnOrder.eraseIdx (r.turnOrder.findIdx (· == pid)) } : Room).turnIdx ≥ ({ r with turnOrder := r.turnOrder.eraseIdx (r.turnOrder.findIdx (· == pid)) } : Room).turnOrder.length) from hcl)]
          rw [startAskTimer_of_playing (r := ({ r with turnOrder := r.turnOrder.eraseIdx (r.turnOrder.findIdx (· == pid)) } : Room)) hst (show r.turnIdx < (r.turnOrder.eraseIdx (r.turnOrder.findIdx (· == pid))).length from by omega)]
          refine ⟨rfl, fun hd => absurd hd hdec, ?_, ?_⟩
          · intro h1
            omega
          · intro _
            exact iff_of_true ⟨_, List.mem_append_left _ (List.mem_singleton_self _)⟩
              (Or.inl heq)
      · rw [if_neg (show ¬ (r.turnOrder.findIdx (· == pid) = ({ r with turnOrder := r.turnOrder.eraseIdx (r.turnOrder.findIdx (· == pid)) } : Room).turnIdx) from heq)]
        refine ⟨rfl, fun hd => absurd hd hdec, ?_, ?_⟩
        · intro h1
          omega
        · intro _
          refine iff_of_false ?_ ?_
          · rintro ⟨q, hq⟩
            simp at hq
          · rintro (h1 | h1) <;> omega

def c5ops : List Op :=
  [.join "a" "Anna", .join "b" "Bruno", .join "c" "Carla", .roundStart "T" "gatto",
   .questionAsk "a" "q", .questionAnswer "T" 1 "Sì", .questionAsk "b" "q", .questionAnswer "T" 2 "Sì"]

/-- C5 counterexample: a reachable playing room with `turnOrder = [a, b, c]`
and `turnIdx = 2` (player `c` current).  Removing `b` — index 1, not equal to
the old `turnIdx` — nevertheless issues a `turn:now` notification (for `c`,
whose index shifted onto the adjusted pointer), refuting the claimed
"if and only if idx equals the old turnIndex". -/
theorem c5_counterexample :
    ∃ r, runOps demoRoom c5ops = some r ∧
      r.status = Status.playing ∧
      r.turnOrder = ["a", "b", "c"] ∧
      r.turnIdx = 2 ∧
      r.turnOrder.findIdx (· == "b") = 1 ∧
      Event.turnNow "c" ∈ (handlePlayerExitDuringRound r "b").2 ∧
      (handlePlayerExitDuringRound r "b").1.turnIdx = 1 := by
  refine ⟨(runOps demoRoom c5ops).get (by decide), (Option.some_get (by decide)).symm,
    by decide, by decide, by decide, by decide, by decide, by decide⟩

/-- C5 witness: the amended adjustment rule applied to a concrete playing room
(`turnOrder = [a, b]`, `turnIdx = 1`, removing `a` at index `0 < turnIdx`). -/
theorem c5_exit_adjustment_witness :
    (handlePlayerExitDuringRound c3PlayingRoom "a").1.turnOrder = ["b"] ∧
    (handlePlayerExitDuringRound c3PlayingRoom "a").1.turnIdx = 0 := by
  have h := c5_exit_adjustment c3PlayingRoom "a" (by decide) (by decide) (by decide)
  exact ⟨h.1, h.2.1 (by decide)⟩

theorem startAskTimer_turnIdx {r : Room} (h2 : r.turnIdx < r.turnOrder.length) :
    (startAskTimer r).1.turnIdx = r.turnIdx := by
  unfold startAskTimer clearTurnTimer
  dsimp only
  split
  · rfl
  · split
    · rfl
    · rw [if_neg (show ¬ _ ≥ _ from Nat.not_le.2 h2)]

theorem startAskTimer_turnTimer {r : Room} (h1 : r.status = Status.playing)
    (h2 : r.turnIdx < r.turnOrder.length) :
    (startAskTimer r).1.turnTimer = some (.ask (r.turnOrder.getD r.turnIdx "")) := by
  rw [startAskTimer_of_playing h1 h2]

theorem startGuessPhase_turnIdx (r : Room) : (startGuessPhase r).1.turnIdx = r.turnIdx := rfl

/-- C6 (amended): a successful thinker answer (non-sentinel) on a pending
question in a playing room with a non-empty turn order increments `asked`,
broadcasts the counter, advances the turn (wrapping), and announces the new
turn; if `asked` has now reached `maxQuestions` the room transitions to
`Guessing` with no timer left live — but the turn announcement and a
transient ask-timer still happen first; otherwise the room stays `playing`
with the next player's ask-timer set. -/
theorem c6_answer_advance (r : Room) (tid : String) (qid : Nat) (answer : String)
    (q : Question)
    (hth : r.thinkerSocketId = some tid)
    (hq : r.questions.find? (fun x => x.id == qid) = some q)
    (hpend : q.answer = none)
    (hans : answer ≠ "Non so")
    (hst : r.status = Status.playing)
    (hne : r.turnOrder ≠ []) :
    (questionAnswer r tid qid answer).1.asked = r.asked + 1 ∧
    Event.counterUpdate (r.asked + 1) r.maxQuestions ∈ (questionAnswer r tid qid answer).2 ∧
    (questionAnswer r tid qid answer).1.turnIdx = (r.turnIdx + 1) % r.turnOrder.length ∧
    Event.turnNow (r.turnOrder.getD ((r.turnIdx + 1) % r.turnOrder.length) "") ∈ (questionAnswer r tid qid answer).2 ∧
    (r.asked + 1 ≥ r.maxQuestions →
      (questionAnswer r tid qid answer).1.status = Status.guessing ∧ (questionAnswer r tid qid answer).1.turnTimer = none) ∧
    (r.asked + 1 < r.maxQuestions →
      (questionAnswer r tid qid answer).1.status = Status.playing ∧
      (questionAnswer r tid qid answer).1.turnTimer = some (.ask (r.turnOrder.getD ((r.turnIdx + 1) % r.turnOrder.length) ""))) := by
  have hpos : 0 < r.turnOrder.length := List.length_pos.2 hne
  have hmod : (r.turnIdx + 1) % r.turnOrder.length < r.turnOrder.length := Nat.mod_lt _ hpos
  unfold questionAnswer
  dsimp only
  rw [if_neg (not_not_intro hth.symm)]
  rw [hq]
  dsimp only
  rw [if_neg (show ¬ (strTruthy q.answer = true) from by simp [hpend, strTruthy])]
  rw [if_pos hans]
  dsimp only
  split
  case isFalse h0 =>
    exact absurd (show ¬ (r.turnOrder.isEmpty = true) from by
      simpa [List.isEmpty_iff] using hne) h0
  case isTrue h0 =>
    dsimp only
    split
    case isTrue hcond =>
      rw [startAskTimer_asked, startAskTimer_status, startAskTimer_maxQuestions] at hcond
      replace hcond : r.asked + 1 ≥ r.maxQuestions ∧ r.status = Status.playing := hcond
      refine ⟨?_, ?_, ?_, ?_, ?_, ?_⟩
      · rw [startGuessPhase_asked, startAskTimer_asked]
        rfl
      · simp [clearTurnTimer]
      · rw [startGuessPhase_turnIdx, startAskTimer_turnIdx]
        · rfl
        · exact hmod
      · simp [clearTurnTimer]
      · intro _
        exact ⟨startGuessPhase_status _, startGuessPhase_turnTimer _⟩
      · intro hlt
        omega
    case isFalse hcond =>
      rw [startAskTimer_asked, startAskTimer_status, startAskTimer_maxQuestions] at hcond
      replace hcond : ¬ (r.asked + 1 ≥ r.maxQuestions ∧ r.status = Status.playing) := hcond
      refine ⟨?_, ?_, ?_, ?_, ?_, ?_⟩
      · rw [startAskTimer_asked]
        rfl
      · simp [clearTurnTimer]
      · rw [startAskTimer_turnIdx]
        · rfl
        · exact hmod
      · simp [clearTurnTimer]
      · intro hge
        exact absurd ⟨hge, hst⟩ hcond
      · intro _
        refine ⟨?_, ?_⟩
        · rw [startAskTimer_status]
          exact hst
        · rw [startAskTimer_turnTimer]
          · rfl
          · exact hst
          · exact hmod

def c6room : Room :=
  { demoRoom with
    status := Status.playing
    players := demoRoom.players ++ [("a", ⟨"Anna", "guesser", 0⟩)]
    secretWord := some "gatto"
    questions := [⟨1, "a", "È un animale?", none⟩]
    turnOrder := ["a"]
    turnIdx := 0
    asked := 19
    turnTimer := some (.answer "T") }

/-- C6 counterexample: with `asked = 19` and question 1 pending, the thinker's
answer takes `asked` to `maxQuestions = 20` and the round transitions to
`Guessing` — but a `turn:now` announcement and a `timer:start` notification
are still broadcast first (the transition then cancels the server-side timer),
refuting "no new turn announcement and no ask-timer started". -/
theorem c6_counterexample :
    (questionAnswer c6room "T" 1 "Sì").1.status = Status.guessing ∧
    (questionAnswer c6room "T" 1 "Sì").1.asked = 20 ∧
    c6room.maxQuestions = 20 ∧
    Event.turnNow "a" ∈ (questionAnswer c6room "T" 1 "Sì").2 ∧
    Event.timerStart "a" "ask" ∈ (questionAnswer c6room "T" 1 "Sì").2 := by
  refine ⟨by decide, by decide, by decide, by decide, by decide⟩

/-- C6 witness: the amended answer/advance contract applied to `c6room`. -/
theorem c6_answer_advance_witness :
    (questionAnswer c6room "T" 1 "Sì").1.asked = c6room.asked + 1 ∧
    (questionAnswer c6room "T" 1 "Sì").1.turnIdx = 0 ∧
    ((questionAnswer c6room "T" 1 "Sì").1.status = Status.guessing ∧
      (questionAnswer c6room "T" 1 "Sì").1.turnTimer = none) := by
  have h := c6_answer_advance c6room "T" 1 "Sì" ⟨1, "a", "È un animale?", none⟩
    (by decide) (by decide) (by decide) (by decide) (by decide) (by decide)
  exact ⟨h.1, h.2.2.1, h.2.2.2.2.1 (by decide)⟩

theorem endRoundAndRotate_status (r : Room) (m : String) (w : Option String) :
    (endRoundAndRotate r m w).1.status = Status.waiting := rfl

theorem endRoundAndRotate_guessAttempts (r : Room) (m : String) (w : Option String) :
    (endRoundAndRotate r m w).1.guessAttempts = none := rfl

theorem endRoundAndRotate_mem_roundEnded (r : Room) (m : String) (w : Option String) :
    Event.roundEnded m r.secretWord w ∈ (endRoundAndRotate r m w).2 := by
  unfold endRoundAndRotate
  dsimp only
  exact List.mem_append_left _ (List.mem_append_left _ (List.mem_singleton_self _))

/-- The guessing-branch behavior of `guess:submit`, covering the zero-attempts
no-op, the decrement, the lazy initialization of a late joiner, and both
round-ending outcomes. -/
theorem guessSubmit_guessing {r : Room} {ga : List (String × Nat)} (id t : String)
    (hst : r.status = Status.guessing)
    (hga : r.guessAttempts = some ga)
    (hth : some id ≠ r.thinkerSocketId) :
    (∀ n, alGet ga id = some n → n = 0 → guessSubmit r id t = (r, [])) ∧
    (∀ n, alGet ga id = some n → 0 < n → guessCorrect r (jsTrim t) = true →
      (guessSubmit r id t).1.status = Status.waiting ∧
      (guessSubmit r id t).1.guessAttempts = none ∧
      ∃ m, Event.roundEnded m r.secretWord (some id) ∈ (guessSubmit r id t).2) ∧
    (∀ n, alGet ga id = some n → 0 < n → guessCorrect r (jsTrim t) = false →
      ((alSet ga id (n - 1)).all (fun p => p.2 = 0) = true →
        (guessSubmit r id t).1.status = Status.waiting ∧
        Event.roundEnded "Nessuno ha indovinato. Tentativi esauriti." r.secretWord none
          ∈ (guessSubmit r id t).2) ∧
      ((alSet ga id (n - 1)).all (fun p => p.2 = 0) = false →
        (guessSubmit r id t).1.status = Status.guessing ∧
        (guessSubmit r id t).1.guessAttempts = some (alSet ga id (n - 1)))) ∧
    (alGet ga id = none → guessCorrect r (jsTrim t) = false →
      (guessSubmit r id t).1.status = Status.guessing ∧
      (guessSubmit r id t).1.guessAttempts = some (alSet (alSet ga id 2) id 1)) := by
  unfold guessSubmit
  dsimp only
  rw [if_neg (show ¬ (r.status ≠ Status.playing ∧ r.status ≠ Status.guessing) from
    fun h => h.2 hst)]
  rw [if_pos (show r.status = Status.guessing ∧ r.guessAttempts.isSome = true from
    ⟨hst, by simp [hga]⟩)]
  rw [if_neg hth]
  rw [hga]
  dsimp only [Option.getD]
  refine ⟨?_, ?_, ?_, ?_⟩
  · intro n hn h0
    rw [if_neg (show ¬ ((alGet ga id).isNone = true) from by simp [hn])]
    rw [hn]
    dsimp only
    rw [if_pos h0]
    rw [← hga]
  · intro n hn h0 hcor
    rw [if_neg (show ¬ ((alGet ga id).isNone = true) from by simp [hn])]
    rw [hn]
    dsimp only
    rw [if_neg (show ¬ (n = 0) from by omega)]
    rw [if_pos hcor]
    dsimp only
    refine ⟨endRoundAndRotate_status _ _ _, endRoundAndRotate_guessAttempts _ _ _, ?_⟩
    exact ⟨_, List.mem_append_right _ (endRoundAndRotate_mem_roundEnded _ _ _)⟩
  · intro n hn h0 hcor
    rw [if_neg (show ¬ ((alGet ga id).isNone = true) from by simp [hn])]
    rw [hn]
    dsimp only
    rw [if_neg (show ¬ (n = 0) from by omega)]
    rw [if_neg (show ¬ (guessCorrect r (jsTrim t) = true) from by simp [hcor])]
    refine ⟨?_, ?_⟩
    · intro hall
      rw [if_pos hall]
      dsimp only
      exact ⟨endRoundAndRotate_status _ _ _,
        List.mem_append_right _ (endRoundAndRotate_mem_roundEnded _ _ _)⟩
    · intro hall
      rw [if_neg (show ¬ ((alSet ga id (n - 1)).all (fun p => p.2 = 0) = true) from by
        simp [hall])]
      exact ⟨hst, rfl⟩
  · intro hnone hcor
    rw [if_pos (show (alGet ga id).isNone = true from by simp [hnone])]
    rw [alGet_alSet]
    dsimp only
    rw [if_neg (show ¬ ((2 : Nat) = 0) from by decide)]
    rw [if_neg (show ¬ (guessCorrect r (jsTrim t) = true) from by simp [hcor])]
    have hall : (alSet (alSet ga id 2) id (2 - 1)).all (fun p => p.2 = 0) = false :=
      all_eq_false_of_alGet (alGet_alSet _ _ _) (by decide)
    rw [if_neg (show ¬ ((alSet (alSet ga id 2) id (2 - 1)).all (fun p => p.2 = 0) = true)
      from by simp [hall])]
    exact ⟨hst, rfl⟩

theorem startGuessPhase_attempts (r : Room) (id : String)
    (hm : id ∈ alKeys r.players) (hth : some id ≠ r.thinkerSocketId) :
    alGet ((startGuessPhase r).1.guessAttempts.getD []) id = some 2 := by
  have hrw : (startGuessPhase r).1.guessAttempts
      = some (((alKeys r.players).filter (fun k => some k ≠ r.thinkerSocketId)).map
          (fun k => (k, 2))) := rfl
  rw [hrw]
  show alGet (((alKeys r.players).filter (fun k => some k ≠ r.thinkerSocketId)).map
    (fun k => (k, 2))) id = some 2
  apply alGet_map_two
  rw [List.mem_filter]
  exact ⟨hm, by simpa using hth⟩

/-- C7: on entry to the guessing phase every current non-thinker player is
assigned exactly 2 attempts (and no timer runs); each subsequent guess by a
player with attempts recorded either is a no-op (0 attempts left) or consumes
exactly one attempt regardless of correctness; and when the decrement brings
every recorded attempt count to zero with an incorrect guess, the round ends
with `winnerId = null` and the secret revealed in the `round:ended` event. -/
theorem c7_guess_attempts_budget :
    (∀ (r : Room) (id : String), id ∈ alKeys r.players → some id ≠ r.thinkerSocketId →
      alGet ((startGuessPhase r).1.guessAttempts.getD []) id = some 2
        ∧ (startGuessPhase r).1.status = Status.guessing
        ∧ (startGuessPhase r).1.turnTimer = none) ∧
    (∀ (r : Room) (ga : List (String × Nat)) (id t : String) (n : Nat),
      r.status = Status.guessing → r.guessAttempts = some ga → some id ≠ r.thinkerSocketId →
      alGet ga id = some n →
      (n = 0 → guessSubmit r id t = (r, [])) ∧
      (0 < n → guessCorrect r (jsTrim t) = false →
        (alSet ga id (n - 1)).all (fun p => p.2 = 0) = false →
        alGet ((guessSubmit r id t).1.guessAttempts.getD []) id = some (n - 1)) ∧
      (0 < n → guessCorrect r (jsTrim t) = false →
        (alSet ga id (n - 1)).all (fun p => p.2 = 0) = true →
        (guessSubmit r id t).1.status = Status.waiting ∧
        Event.roundEnded "Nessuno ha indovinato. Tentativi esauriti." r.secretWord none
          ∈ (guessSubmit r id t).2)) := by
  constructor
  · intro r id hm hth
    exact ⟨startGuessPhase_attempts r id hm hth, startGuessPhase_status _,
      startGuessPhase_turnTimer _⟩
  · intro r ga id t n hst hga hth hn
    have h := guessSubmit_guessing id t hst hga hth
    refine ⟨h.1 n hn, ?_, fun h0 hcor hall => (h.2.2.1 n hn h0 hcor).1 hall⟩
    intro h0 hcor hall
    rw [((h.2.2.1 n hn h0 hcor).2 hall).2]
    exact alGet_alSet _ _ _

def c7GuessRoom : Room :=
  { demoRoom with
    status := Status.guessing
    secretWord := some "gatto"
    players := demoRoom.players ++ [("a", ⟨"Anna", "guesser", 0⟩)]
    turnOrder := ["a"]
    guessAttempts := some [("a", 2)] }

def c7GuessRoomLow : Room :=
  { c7GuessRoom with guessAttempts := some [("a", 1)] }

/-- C7 witness: the budget facts evaluated on a concrete guessing room. -/
theorem c7_guess_attempts_budget_witness :
    alGet ((startGuessPhase c7GuessRoom).1.guessAttempts.getD []) "a" = some 2 ∧
    ((guessSubmit c7GuessRoomLow "a" "cane").1.status = Status.waiting ∧
      Event.roundEnded "Nessuno ha indovinato. Tentativi esauriti."
        c7GuessRoomLow.secretWord none ∈ (guessSubmit c7GuessRoomLow "a" "cane").2) :=
  ⟨(c7_guess_attempts_budget.1 c7GuessRoom "a" (by decide) (by decide)).1,
   (c7_guess_attempts_budget.2 c7GuessRoomLow [("a", 1)] "a" "cane" 1
      (by decide) rfl (by decide) (by decide)).2.2 (by decide) (by decide) (by decide)⟩

/-- C10: a player with no entry in `guessAttempts` (a joiner after the
guessing phase began) has their first guess lazily initialized to 2 attempts
and immediately consumes one, leaving 1; a player at 0 attempts is a silent
no-op; and a player at 1 attempt consumes the last one (possibly ending the
round with no winner) — so a late joiner can submit at most 2 guesses, the
same budget as players present at phase entry. -/
theorem c10_late_joiner_budget :
    ∀ (r : Room) (ga : List (String × Nat)) (id t : String),
      r.status = Status.guessing → r.guessAttempts = some ga → some id ≠ r.thinkerSocketId →
      (alGet ga id = none → guessCorrect r (jsTrim t) = false →
        alGet ((guessSubmit r id t).1.guessAttempts.getD []) id = some 1 ∧
        (guessSubmit r id t).1.status = Status.guessing) ∧
      (alGet ga id = some 0 → guessSubmit r id t = (r, [])) ∧
      (alGet ga id = some 1 → guessCorrect r (jsTrim t) = false →
        ((alSet ga id 0).all (fun p => p.2 = 0) = false →
          alGet ((guessSubmit r id t).1.guessAttempts.getD []) id = some 0) ∧
        ((alSet ga id 0).all (fun p => p.2 = 0) = true →
          (guessSubmit r id t).1.status = Status.waiting)) := by
  intro r ga id t hst hga hth
  have h := guessSubmit_guessing id t hst hga hth
  refine ⟨?_, fun h0 => h.1 0 h0 rfl, ?_⟩
  · intro hnone hcor
    have h4 := h.2.2.2 hnone hcor
    constructor
    · rw [h4.2]
      exact alGet_alSet _ _ _
    · exact h4.1
  · intro h1 hcor
    constructor
    · intro hall
      rw [((h.2.2.1 1 h1 (by decide) hcor).2 hall).2]
      exact alGet_alSet _ _ _
    · intro hall
      exact ((h.2.2.1 1 h1 (by decide) hcor).1 hall).1

def c10Room : Room :=
  { c7GuessRoom with guessAttempts := some [] }

/-- C10 witness: a late joiner with no attempts entry submits a wrong guess
and is left with exactly 1 attempt. -/
theorem c10_late_joiner_budget_witness :
    alGet ((guessSubmit c10Room "a" "cane").1.guessAttempts.getD []) "a" = some 1 ∧
    (guessSubmit c10Room "a" "cane").1.status = Status.guessing :=
  (c10_late_joiner_budget c10Room [] "a" "cane" (by decide) rfl (by decide)).1
    (by decide) (by decide)

/-- C8 counterexample: a non-thinker calling `round:start` is silently
ignored — no `system:error` (or any other event) is emitted; and the
empty-secret failure, while it does emit a private `system:error`, is not
state-preserving: it overwrites `secretWord` (here from `none` to
`some ""`). -/
theorem c8_counterexample :
    roundStart (roomJoin demoRoom "a" "Anna").1 "a" "gatto"
        = ((roomJoin demoRoom "a" "Anna").1, []) ∧
    demoRoom.secretWord = none ∧
    (roundStart demoRoom "T" "   ").1.secretWord = some "" ∧
    (roundStart demoRoom "T" "   ").2 = [Event.systemError "T" "Parola segreta vuota"] := by
  refine ⟨by decide, by decide, by decide, by decide⟩

/-- C8 (amended): a `round:start` by a connection that is not the thinker is a
silent no-op (state unchanged, no event — in particular no `system:error`);
a `round:start` by the thinker whose trimmed secret is empty emits a private
`system:error` ("Parola segreta vuota") and leaves the status and all other
round fields untouched, but sets `secretWord` to the empty string. -/
theorem c8_roundStart_failures :
    (∀ (r : Room) (id w : String), some id ≠ r.thinkerSocketId →
      roundStart r id w = (r, [])) ∧
    (∀ (r : Room) (id w : String), r.thinkerSocketId = some id → jsTrim w = "" →
      roundStart r id w = ({ r with secretWord := some "" },
        [Event.systemError id "Parola segreta vuota"])) := by
  constructor
  · intro r id w h
    unfold roundStart
    dsimp only
    rw [if_pos h]
  · intro r id w hth hw
    unfold roundStart
    dsimp only
    rw [if_neg (not_not_intro hth.symm)]
    rw [hw]
    rw [if_pos rfl]

/-- C8 witness: both failure modes evaluated on concrete rooms. -/
theorem c8_roundStart_failures_witness :
    roundStart c3PlayingRoom "a" "gatto" = (c3PlayingRoom, []) ∧
    roundStart demoRoom "T" "   " = ({ demoRoom with secretWord := some "" },
      [Event.systemError "T" "Parola segreta vuota"]) :=
  ⟨c8_roundStart_failures.1 c3PlayingRoom "a" "gatto" (by decide),
   c8_roundStart_failures.2 demoRoom "T" "   " (by decide) (by decide)⟩

theorem endRoundAndRotate_thinkerSocketId (r : Room) (m : String) (w : Option String) :
    (endRoundAndRotate r m w).1.thinkerSocketId = nextThinkerOf r := rfl

theorem endRoundAndRotate_turnIdx (r : Room) (m : String) (w : Option String) :
    (endRoundAndRotate r m w).1.turnIdx = 0 := rfl

/-- C9: when a round ends through `endRoundAndRotate`, the thinker role
rotates before the room returns to `waiting`: the player at the current
turn-order position (clamped), or — when `turnOrder` is empty — some other
remaining player, becomes the new thinker; the previous thinker does not keep
the role; every player's role is reassigned accordingly; `thinkerSocketId` is
updated; `turnOrder` is rebuilt from the player keys excluding the new
thinker; and `turnIdx` resets to 0 with the room back in `waiting`. -/
theorem c9_thinker_rotation (r : Room) (m : String) (w : Option String) (T : String)
    (hT : r.thinkerSocketId = some T)
    (hnotin : T ∉ r.turnOrder)
    (hex : r.turnOrder = [] → ∃ p ∈ alKeys r.players, p ≠ T) :
    ∃ nt, nextThinkerOf r = some nt ∧ nt ≠ T ∧
      (endRoundAndRotate r m w).1.thinkerSocketId = some nt ∧
      (endRoundAndRotate r m w).1.status = Status.waiting ∧
      (endRoundAndRotate r m w).1.turnIdx = 0 ∧
      (r.turnOrder ≠ [] →
        nt = r.turnOrder.getD (if r.turnIdx ≥ r.turnOrder.length then 0 else r.turnIdx) ""
          ∧ nt ∈ r.turnOrder) ∧
      (r.turnOrder = [] → nt ∈ alKeys r.players) ∧
      (endRoundAndRotate r m w).1.turnOrder
        = (alKeys (endRoundAndRotate r m w).1.players).filter (fun k => some k ≠ some nt) ∧
      (∀ p ∈ (endRoundAndRotate r m w).1.players,
        p.2.role = if some p.1 = some nt then "thinker" else "guesser") := by
  have hpl : (endRoundAndRotate r m w).1.players
      = r.players.map (fun q => (q.1,
          { q.2 with role := if some q.1 = nextThinkerOf r then "thinker" else "guesser" })) := rfl
  have hto : (endRoundAndRotate r m w).1.turnOrder
      = (alKeys (endRoundAndRotate r m w).1.players).filter (fun k => some k ≠ nextThinkerOf r) := rfl
  have main : ∃ nt, nextThinkerOf r = some nt ∧ nt ≠ T ∧
      (r.turnOrder ≠ [] →
        nt = r.turnOrder.getD (if r.turnIdx ≥ r.turnOrder.length then 0 else r.turnIdx) ""
          ∧ nt ∈ r.turnOrder) ∧
      (r.turnOrder = [] → nt ∈ alKeys r.players) := by
    by_cases hne : r.turnOrder = []
    · obtain ⟨p, hp, hpT⟩ := hex hne
      cases hf : (alKeys r.players).find? (fun k => some k != r.thinkerSocketId) with
      | none =>
          exfalso
          have := List.find?_eq_none.1 hf p hp
          simp [hT] at this
          exact hpT this
      | some p' =>
          refine ⟨p', ?_, ?_, fun hcon => absurd hne hcon, fun _ => List.mem_of_find?_eq_some hf⟩
          · unfold nextThinkerOf
            rw [if_neg (not_not_intro (by simp [hne, List.isEmpty_iff]))]
            rw [hf]
          · have := List.find?_some hf
            simp [hT] at this
            exact this
    · have hpos : 0 < r.turnOrder.length := List.length_pos.2 hne
      have hlt : (if r.turnIdx ≥ r.turnOrder.length then 0 else r.turnIdx)
          < r.turnOrder.length := by
        split
        · exact hpos
        · omega
      have hmem : r.turnOrder.getD (if r.turnIdx ≥ r.turnOrder.length then 0 else r.turnIdx) ""
          ∈ r.turnOrder := by
        rw [List.getD_eq_getElem _ _ hlt]
        exact List.getElem_mem hlt
      refine ⟨r.turnOrder.getD (if r.turnIdx ≥ r.turnOrder.length then 0 else r.turnIdx) "",
        ?_, ?_, fun _ => ⟨rfl, hmem⟩, fun hcon => absurd hcon hne⟩
      · unfold nextThinkerOf
        rw [if_pos (show ¬ (r.turnOrder.isEmpty = true) from by simp [List.isEmpty_iff, hne])]
      · intro heq
        exact hnotin (heq ▸ hmem)
  obtain ⟨nt, hnt, hntT, hpos', hemp'⟩ := main
  refine ⟨nt, hnt, hntT, ?_, endRoundAndRotate_status _ _ _, endRoundAndRotate_turnIdx _ _ _,
    hpos', hemp', ?_, ?_⟩
  · rw [endRoundAndRotate_thinkerSocketId, hnt]
  · rw [hto, hnt]
  · intro p hp
    rw [hpl] at hp
    rcases List.mem_map.1 hp with ⟨q, hq, rfl⟩
    dsimp only
    rw [hnt]

/-- C9 witness: the rotation applied to a concrete playing room with thinker
`"T"` and guessers `"a"`, `"b"` (current position 1, so `"b"` becomes the new
thinker). -/
theorem c9_thinker_rotation_witness :
    ∃ nt, nextThinkerOf c3PlayingRoom = some nt ∧ nt ≠ "T" ∧
      (endRoundAndRotate c3PlayingRoom "fine round" (some "a")).1.thinkerSocketId = some nt ∧
      (endRoundAndRotate c3PlayingRoom "fine round" (some "a")).1.status = Status.waiting := by
  obtain ⟨nt, h1, h2, h3, h4, _⟩ := c9_thinker_rotation c3PlayingRoom "fine round" (some "a") "T"
    (by decide) (by decide) (fun h => absurd h (by decide))
  exact ⟨nt, h1, h2, h3, h4⟩

end TwentyQuestions